import Mathlib

/-!
Verification of the rhai export/marshalling generator and the language-core
package against its specification.

The development shallowly embeds:
* `src/packages/lang_core.rs` — the `set_tag` native function and the
  `collect_fn_metadata` introspection helper;
* `codegen/src/module.rs` — the `Module` extraction (`Module::parse`) and
  emission (`Module::generate`) passes.

Parts of the repository that `module.rs` and `lang_core.rs` depend on but
whose source is not available here (the `ExportedFn` signature classifier in
`function.rs`, the `generate_body` emitter in `rhai_module.rs`, the `Tag`
type alias, and the engine constants) are modelled from the specification;
each such definition carries a doc comment starting with
`Modelled from the spec:`.  All other definitions are translated directly
from the source.
-/

set_option autoImplicit false

namespace RhaiVerify

/-! ## Boxed dynamic values and positions -/

/-- A source position token.  `NONE` is `Position::NONE`. -/
inductive Position where
  | NONE
  | line (n : Nat)
deriving DecidableEq, Repr

/-- A boxed, type-tagged runtime value (`Dynamic`).  The concrete payload is
abstracted to an opaque `Nat`; `ty` is the name of the concrete static type
it boxes, and `tag` is the user-visible numeric tag. -/
structure Dynamic where
  ty : String
  val : Nat
  tag : Int
deriving DecidableEq, Repr

/-- The default (unit) dynamic value, `Dynamic::UNIT` / `mem::take`'s
replacement value. -/
def Dynamic.unitVal : Dynamic := ⟨"()", 0, 0⟩

/-- Modelled from the spec: the bound constants of the numeric `Tag` type
(`types/dynamic.rs` is not part of the provided sources).  The claims about
`set_tag` depend only on the interval `[Tag.MIN, Tag.MAX]`, not on the
concrete bounds; a 16-bit signed range is used. -/
def Tag.MIN : Int := -32768

/-- Modelled from the spec: upper bound of the `Tag` type, see `Tag.MIN`. -/
def Tag.MAX : Int := 32767

/-- Runtime error values (`EvalAltResult`); only the arithmetic-error variant
constructed by `set_tag` is needed. -/
inductive ERR where
  | ErrorArithmetic (msg : String) (pos : Position)
deriving DecidableEq, Repr

/-! ## `set_tag` (src/packages/lang_core.rs, lines 27-55)

The Rust function takes `value: &mut Dynamic` and returns
`RhaiResultOf<()>`; the embedding passes the state explicitly and returns
the pair (outcome, final value of the boxed argument). -/

/-- Translation of `core_functions::set_tag`: range-check the requested tag
against `Tag::MIN` / `Tag::MAX` and either report an arithmetic error
(leaving the value untouched) or store the tag. -/
def set_tag (value : Dynamic) (tag : Int) : Except ERR Unit × Dynamic :=
  if tag < Tag.MIN then
    (Except.error (ERR.ErrorArithmetic
        (toString tag ++ " is too small to fit into a tag (must be between "
          ++ toString Tag.MIN ++ " and " ++ toString Tag.MAX ++ ")")
        Position.NONE),
     value)
  else if tag > Tag.MAX then
    (Except.error (ERR.ErrorArithmetic
        (toString tag ++ " is too large to fit into a tag (must be between "
          ++ toString Tag.MIN ++ " and " ++ toString Tag.MAX ++ ")")
        Position.NONE),
     value)
  else
    (Except.ok (), ⟨value.ty, value.val, tag⟩)

/-- Modelled from the spec: the adapter layer propagates a fallible return's
error variant "as a normal recoverable failure carrying a message and the
call position"; an error whose position is unset is stamped with the call
position (the emitted plugin machinery performing this is not under the
provided sources). -/
def fill_position (pos : Position) : ERR → ERR
  | ERR.ErrorArithmetic m p =>
      ERR.ErrorArithmetic m (if p = Position.NONE then pos else p)

/-- Outcome of one dispatcher invocation.  `panic` is a non-recoverable
assertion/cast failure (a Rust panic), `err` is the recoverable error
channel (`Err(Box<EvalAltResult>)`), `ok` the boxed success value. -/
inductive CallResult where
  | panic (msg : String)
  | ok (v : Dynamic)
  | err (e : ERR)
deriving DecidableEq, Repr

/-- Modelled from the spec: the generated adapter for `set_tag`
(`return_raw`): it forwards to the native function and routes its fallible
result into the recoverable error channel, stamping the call position;
success becomes the boxed unit value.  Returns the outcome and the final
state of the mutably-borrowed first argument. -/
def set_tag_dispatch (value : Dynamic) (tag : Int) (pos : Position) :
    CallResult × Dynamic :=
  match set_tag value tag with
  | (Except.ok _, v) => (CallResult.ok Dynamic.unitVal, v)
  | (Except.error e, v) => (CallResult.err (fill_position pos e), v)

/-! ## Declaration syntax (the `syn` fragment consumed by `module.rs`) -/

/-- A Rust static type as it appears in a declared parameter list: a path
type (identified by its printed name), an immutable reference, or a mutable
reference. -/
inductive RustType where
  | path (name : String)
  | ref (inner : RustType)
  | mutRef (inner : RustType)
deriving DecidableEq, Repr

/-- One argument inside a `#[rhai_fn(...)]` attribute, per the modifier
grammar of the spec: `name = "..."`, `get = "..."`, `set = "..."`, `pure`,
`return_raw`, `skip`; anything else is malformed. -/
inductive RhaiFnArg where
  | nameKV (s : String)
  | getKV (s : String)
  | setKV (s : String)
  | pureFlag
  | returnRaw
  | skip
  | malformed (s : String)
deriving DecidableEq, Repr

/-- An outer attribute on an item: either the recognized `rhai_fn`
export-modifier attribute (with its argument list) or any other attribute,
identified by its path. -/
inductive Attr where
  | rhaiFn (args : List RhaiFnArg)
  | other (name : String)
deriving DecidableEq, Repr

/-- Item visibility (`syn::Visibility`); `module.rs` only ever tests for the
`Public` variant. -/
inductive Visibility where
  | publicVis
  | crateVis
  | inheritedVis
deriving DecidableEq, Repr

/-- A declared function parameter: binding name and static type. -/
structure FnParam where
  name : String
  ty : RustType
deriving DecidableEq, Repr

/-- A function item (`syn::ItemFn`): attributes, visibility, signature and
an opaque body (carried through emission unchanged). -/
structure ItemFn where
  attrs : List Attr
  vis : Visibility
  name : String
  params : List FnParam
  ret : Option RustType
  body : String
deriving DecidableEq, Repr

/-- A constant item (`syn::ItemConst`): attributes, visibility, name,
declared type, and its (opaque) literal value expression. -/
structure ItemConst where
  attrs : List Attr
  vis : Visibility
  name : String
  ty : RustType
  value : String
deriving DecidableEq, Repr

/-- An item directly inside a module block: a function, a constant, or any
other item (uses, sub-modules, ...), carried opaquely. -/
inductive Item where
  | fn (f : ItemFn)
  | const (c : ItemConst)
  | other (tokens : String)
deriving DecidableEq, Repr

/-- A module item (`syn::ItemMod`).  `content = none` is a bodiless
declaration `mod name;` with no braces. -/
structure ItemMod where
  vis : Visibility
  name : String
  content : Option (List Item)
deriving DecidableEq, Repr

/-! ## Export-modifier parameters (`ExportedFnParams`) -/

/-- The parsed export-modifier parameter set attached to one function.
The structure is from `crate::function::ExportedFnParams`. -/
structure ExportedFnParams where
  name : Option String
  getProp : Option String
  setProp : Option String
  isPure : Bool
  returnRaw : Bool
  skip : Bool
deriving DecidableEq, Repr

/-- `ExportedFnParams::default()`: full export, no overrides, no skip. -/
def ExportedFnParams.defaults : ExportedFnParams :=
  ⟨none, none, none, false, false, false⟩

/-- `ExportedFnParams::skip()`: the parameter set that excludes the
function. -/
def ExportedFnParams.skipAll : ExportedFnParams :=
  ⟨none, none, none, false, false, true⟩

/-- Generation-time failures (`syn::Error`), abstracted to their message. -/
abbrev GenError := String

/-- Modelled from the spec: the effect of one recognized modifier key on
the parameter set; a malformed key is a fail-fast parse failure. -/
def applyRhaiFnArg (p : ExportedFnParams) :
    RhaiFnArg → Except GenError ExportedFnParams
  | RhaiFnArg.nameKV s => Except.ok { p with name := some s }
  | RhaiFnArg.getKV s => Except.ok { p with getProp := some s }
  | RhaiFnArg.setKV s => Except.ok { p with setProp := some s }
  | RhaiFnArg.pureFlag => Except.ok { p with isPure := true }
  | RhaiFnArg.returnRaw => Except.ok { p with returnRaw := true }
  | RhaiFnArg.skip => Except.ok { p with skip := true }
  | RhaiFnArg.malformed s => Except.error ("unknown attribute option " ++ s)

/-- Fold of `applyRhaiFnArg` over an argument list from a given starting
parameter set. -/
def parseRhaiFnArgsFrom (p : ExportedFnParams) :
    List RhaiFnArg → Except GenError ExportedFnParams
  | [] => Except.ok p
  | a :: rest =>
      match applyRhaiFnArg p a with
      | Except.ok p2 => parseRhaiFnArgsFrom p2 rest
      | Except.error e => Except.error e

/-- Modelled from the spec: parsing of the `#[rhai_fn(...)]` argument list
(`rhai_fn_attr.parse_args()`; the attribute parser lives in `function.rs`,
not under the provided sources).  Recognized keys set the corresponding
field starting from the defaults; malformed input is a fail-fast parse
failure. -/
def parseRhaiFnArgs (args : List RhaiFnArg) : Except GenError ExportedFnParams :=
  parseRhaiFnArgsFrom ExportedFnParams.defaults args

/-! ## `inner_fn_attributes` (codegen/src/module.rs, lines 15-29) -/

/-- Whether an attribute is the `rhai_fn` export-modifier attribute
(the `a.path.get_ident() == "rhai_fn"` test). -/
def isRhaiFnAttr : Attr → Bool
  | Attr.rhaiFn _ => true
  | Attr.other _ => false

/-- The argument list of the first `rhai_fn` attribute, if any
(`attrs.iter().position(...)`). -/
def firstRhaiFnArgs : List Attr → Option (List RhaiFnArg)
  | [] => none
  | Attr.rhaiFn args :: _ => some args
  | Attr.other _ :: rest => firstRhaiFnArgs rest

/-- Removal of the first `rhai_fn` attribute (`f.attrs.remove(idx)`). -/
def removeFirstRhaiFn : List Attr → List Attr
  | [] => []
  | Attr.rhaiFn _ :: rest => rest
  | Attr.other n :: rest => Attr.other n :: removeFirstRhaiFn rest

/-- Translation of `inner_fn_attributes`: if a `rhai_fn` attribute is
present, detach it and parse its arguments; otherwise default to a full
export for public functions and to skip for non-public ones.  Returns the
parse outcome together with the (possibly modified) function item. -/
def inner_fn_attributes (f : ItemFn) : Except GenError ExportedFnParams × ItemFn :=
  match firstRhaiFnArgs f.attrs with
  | some args =>
      (parseRhaiFnArgs args, { f with attrs := removeFirstRhaiFn f.attrs })
  | none =>
      match f.vis with
      | Visibility.publicVis => (Except.ok ExportedFnParams.defaults, f)
      | _ => (Except.ok ExportedFnParams.skipAll, f)

/-! ## Signature classification (`ExportedFn`)

The classifier itself lives in `function.rs`, which is not among the
provided sources; it is modelled from §4.3 of the spec, pinned by the
`module_tests` and `generate_tests` in `module.rs` (which fix, e.g., that a
`&str` parameter contributes the `ImmutableString` type token and a
`&mut FLOAT` parameter the `FLOAT` token). -/

/-- Parameter-passing modes, per the spec's `ParamSpec.mode`. -/
inductive PassMode where
  | byValue
  | byImmutableRef
  | byMutableRef
deriving DecidableEq, Repr

/-- Modelled from the spec: whether a type is the recognized call-context
type (`NativeCallContext`), granting the function out-of-band access to the
calling environment. -/
def isCallContextType : RustType → Bool
  | RustType.path "NativeCallContext" => true
  | RustType.ref (RustType.path "NativeCallContext") => true
  | _ => false

/-- Modelled from the spec: classify one declared (non-context) parameter
type into its passing mode and its registered type token.  A plain path
type passes by value under its own token; `&str` passes by immutable
reference under the `ImmutableString` token; any other immutable reference
passes by immutable reference; a mutable reference passes by mutable
reference under the referent's token; unsupported reference nesting is a
hard generation failure. -/
def classifyParamTy : RustType → Except GenError (PassMode × String)
  | RustType.path n => Except.ok (PassMode.byValue, n)
  | RustType.ref (RustType.path n) =>
      if n = "str" then Except.ok (PassMode.byImmutableRef, "ImmutableString")
      else Except.ok (PassMode.byImmutableRef, n)
  | RustType.mutRef (RustType.path n) => Except.ok (PassMode.byMutableRef, n)
  | _ => Except.error "unsupported reference nesting in parameter type"

/-- One classified parameter, per the spec's `ParamSpec`: binding name,
declared static type, passing mode, call-context flag, and the registered
type token (`none` exactly for the call-context parameter, which is
excluded from the type signature). -/
structure ParamSpec where
  name : String
  static_type : RustType
  mode : PassMode
  is_call_context : Bool
  token : Option String
deriving DecidableEq, Repr

/-- Modelled from the spec: classify a declared parameter list.  Only a
leading parameter of the recognized call-context type is treated as the
out-of-band context parameter; every other parameter is classified by
`classifyParamTy`. -/
def classifyParams : Bool → List FnParam → Except GenError (List ParamSpec)
  | _, [] => Except.ok []
  | isFirst, p :: rest =>
      if isFirst ∧ isCallContextType p.ty then
        match classifyParams false rest with
        | Except.ok tail =>
            Except.ok (⟨p.name, p.ty, PassMode.byValue, true, none⟩ :: tail)
        | Except.error e => Except.error e
      else
        match classifyParamTy p.ty with
        | Except.ok (m, tok) =>
            match classifyParams false rest with
            | Except.ok tail =>
                Except.ok (⟨p.name, p.ty, m, false, some tok⟩ :: tail)
            | Except.error e => Except.error e
        | Except.error e => Except.error e

/-- The per-function intermediate representation
(`crate::function::ExportedFn`): name, classified parameters, return type,
and the export-modifier parameter set attached after signature parsing. -/
structure ExportedFn where
  name : String
  params : List ParamSpec
  ret : Option RustType
  fnParams : ExportedFnParams
deriving DecidableEq, Repr

/-- Modelled from the spec: `syn::parse2::<ExportedFn>` — derive the
function IR from a (modifier-stripped) function item by classifying its
signature; the modifier parameter set starts at its default and is attached
afterwards by `Module::parse`. -/
def ExportedFn.parseFn (d : ItemFn) : Except GenError ExportedFn :=
  match classifyParams true d.params with
  | Except.ok ps => Except.ok ⟨d.name, ps, d.ret, ExportedFnParams.defaults⟩
  | Except.error e => Except.error e

/-- The non-context parameters of a function, in declared order. -/
def ExportedFn.nonContextParams (f : ExportedFn) : List ParamSpec :=
  f.params.filter (fun p => !p.is_call_context)

/-- `ExportedFn::arg_count`: the exposed arity — the number of non-context
parameters. -/
def ExportedFn.arg_count (f : ExportedFn) : Nat :=
  f.nonContextParams.length

/-- The dispatcher's `input_types()` behavior: the ordered type tokens of
the non-context parameters. -/
def ExportedFn.input_types (f : ExportedFn) : List String :=
  f.nonContextParams.filterMap (fun p => p.token)

/-- The dispatcher's `is_method_call()` behavior: true exactly when the
first non-context parameter passes by mutable reference. -/
def ExportedFn.is_method_call (f : ExportedFn) : Bool :=
  match f.nonContextParams with
  | [] => false
  | p :: _ => p.mode = PassMode.byMutableRef

/-! ## `Module::parse` (codegen/src/module.rs, lines 38-91) -/

/-- An exported constant (`crate::rhai_module::ExportedConst`):
`(ident.to_string(), expr)`, the expression kept opaque. -/
abbrev ExportedConst := String × String

/-- The module intermediate representation (`struct Module`). -/
structure Module where
  mod_all : Option ItemMod
  fns : List ExportedFn
  consts : List ExportedConst
deriving DecidableEq, Repr

/-- Processing of one function item inside the block, following the fold in
`Module::parse`: detach and parse the export-modifier attribute
(`inner_fn_attributes`), re-parse the modified item as an `ExportedFn`,
attach the parameter set, and retain the function unless `skip` is set.
Returns the optional retained function and the modified item. -/
def processFnItem (d : ItemFn) : Except GenError (Option ExportedFn × ItemFn) :=
  match inner_fn_attributes d with
  | (Except.ok params, d2) =>
      match ExportedFn.parseFn d2 with
      | Except.ok f =>
          Except.ok
            ((if params.skip then none
              else some ⟨f.name, f.params, f.ret, params⟩),
             d2)
      | Except.error e => Except.error e
  | (Except.error e, _) => Except.error e

/-- The function-extraction pass over the block's items
(`content.iter_mut() ... try_fold`): collects the retained `ExportedFn`s in
declaration order and returns the item list with each function item's
export-modifier attribute detached. -/
def parseItems : List Item → Except GenError (List ExportedFn × List Item)
  | [] => Except.ok ([], [])
  | Item.fn d :: rest =>
      match processFnItem d with
      | Except.ok (o, d2) =>
          match parseItems rest with
          | Except.ok (fs, items) =>
              Except.ok ((match o with | some f => f :: fs | none => fs),
                         Item.fn d2 :: items)
          | Except.error e => Except.error e
      | Except.error e => Except.error e
  | i :: rest =>
      match parseItems rest with
      | Except.ok (fs, items) => Except.ok (fs, i :: items)
      | Except.error e => Except.error e

/-- The constant-extraction pass (`content.iter().filter_map(...)`): every
`ItemConst` with public visibility contributes `(name, value)`; non-public
constants and non-constant items contribute nothing. -/
def extractConsts (items : List Item) : List ExportedConst :=
  items.filterMap
    (fun i =>
      match i with
      | Item.const c =>
          match c.vis with
          | Visibility.publicVis => some (c.name, c.value)
          | _ => none
      | _ => none)

/-- Translation of `impl Parse for Module`: a bodiless module (no braced
content) yields empty function and constant lists; otherwise the two
extraction passes run over the content, and the retained `mod_all` carries
the modifier-stripped items. -/
def Module.parse (m : ItemMod) : Except GenError Module :=
  match m.content with
  | none => Except.ok ⟨some m, [], []⟩
  | some items =>
      match parseItems items with
      | Except.ok (fs, items2) =>
          Except.ok ⟨some ⟨m.vis, m.name, some items2⟩, fs, extractConsts items2⟩
      | Except.error e => Except.error e

/-! ## Emission (`Module::generate`, lines 93-108)

`generate_body` lives in `rhai_module.rs`, which is not among the provided
sources; the emitted shape is modelled from §4.5 of the spec and pinned by
the `generate_tests` in `module.rs`: one `set_fn` registration and one
zero-sized dispatcher per retained function, one `set_var` registration per
retained constant, all preceded textually by the original (stripped)
declarations. -/

/-- Access level of a registered entry (`FnAccess`). -/
inductive FnAccess where
  | Public
  | Private
deriving DecidableEq, Repr

/-- One registration statement inside the generated
`rhai_module_generate()` routine: `m.set_fn(name, access, sig, fn)` or
`m.set_var(name, value)`. -/
inductive Registration where
  | setFn (name : String) (access : FnAccess) (sig : List String)
      (tokenName : String)
  | setVar (name : String) (value : String)
deriving DecidableEq, Repr

/-- The observable surface of one emitted zero-sized dispatcher: the name
of its token struct, its `is_method_call()` value, its `input_types()`
value, and its asserted arity. -/
structure Dispatcher where
  tokenName : String
  is_method_call : Bool
  input_types : List String
  arg_count : Nat
deriving DecidableEq, Repr

/-- The name the function is registered under: the modifier's name
override when present, the native name otherwise. -/
def registeredName (f : ExportedFn) : String :=
  (f.fnParams.name).getD f.name

/-- Modelled from the spec: the dispatcher emitted for one retained
function (its token struct is named after the function). -/
def mkDispatcher (f : ExportedFn) : Dispatcher :=
  ⟨f.name ++ "_token", f.is_method_call, f.input_types, f.arg_count⟩

/-- The generated output unit: the original declarations
(modifier-stripped), the ordered registration statements, and the emitted
dispatchers. -/
structure Generated where
  items : List Item
  registrations : List Registration
  dispatchers : List Dispatcher
deriving DecidableEq, Repr

/-- Modelled from the spec: `rhai_module::generate_body` — one `set_fn`
registration per retained function (in order, under the resolved exposed
name, with the `input_types` tokens as the type signature), one `set_var`
registration per retained constant, and one dispatcher per retained
function. -/
def generate_body (fns : List ExportedFn) (consts : List ExportedConst) :
    List Registration × List Dispatcher :=
  (fns.map (fun f =>
      Registration.setFn (registeredName f) FnAccess.Public f.input_types
        (f.name ++ "_token"))
    ++ consts.map (fun c => Registration.setVar c.1 c.2),
   fns.map mkDispatcher)

/-- Translation of `Module::generate`: wrap the (stripped) original content
together with the generated body.  (The Rust code `unwrap`s `mod_all` and
its content; a bodiless module is rendered with an empty item list here.) -/
def Module.generate (m : Module) : Generated :=
  let (regs, disps) := generate_body m.fns m.consts
  ⟨((m.mod_all.map ItemMod.content).join).getD [], regs, disps⟩

/-! ## The emitted dispatcher's `call` behavior

Modelled from §4.5 of the spec and the `generate_tests`: assert the
argument count, extract each argument in declared order (`mem::take` +
`cast` for by-value and `&str` parameters — replacing the slot with the
unit value — and `write_lock` for mutable references), invoke the native
function, and wrap the result. -/

/-- Modelled from the spec: per-argument extraction in declared order.
Returns the extracted values and the post-extraction argument slots, or
`none` when a cast/lock fails (a panic in the emitted code). -/
def extractLoop : List (PassMode × String) → List Dynamic →
    Option (List Dynamic × List Dynamic)
  | [], [] => some ([], [])
  | (m, tok) :: ps, d :: ds =>
      if d.ty = tok then
        match extractLoop ps ds with
        | some (vals, newds) =>
            match m with
            | PassMode.byMutableRef => some (d :: vals, d :: newds)
            | _ => some (d :: vals, Dynamic.unitVal :: newds)
        | none => none
      else none
  | _, _ => none

/-- The mode/token pairs driving extraction for a function. -/
def ExportedFn.extractionPlan (f : ExportedFn) : List (PassMode × String) :=
  f.nonContextParams.filterMap (fun p => p.token.map (fun t => (p.mode, t)))

/-- Modelled from the spec: the emitted `call(args, pos)` body for one
function, with the wrapped native behavior abstracted as `impl`.  The arity
assertion (`debug_assert_eq!`) fires before any extraction: on a count
mismatch the call panics with the argument slots untouched.  Returns the
outcome and the final argument slots. -/
def dispatchCall (f : ExportedFn) (impl : List Dynamic → Except ERR Dynamic)
    (args : List Dynamic) (pos : Position) : CallResult × List Dynamic :=
  if args.length = f.arg_count then
    match extractLoop f.extractionPlan args with
    | some (vals, newArgs) =>
        match impl vals with
        | Except.ok v => (CallResult.ok v, newArgs)
        | Except.error e => (CallResult.err (fill_position pos e), newArgs)
    | none => (CallResult.panic "value cast failed", args)
  else
    (CallResult.panic
      ("wrong arg count: " ++ toString args.length ++ " != "
        ++ toString f.arg_count),
     args)

/-! ## Metadata collection (src/packages/lang_core.rs, lines 65-164) -/

/-- A script-defined function definition (`ast::ScriptFnDef`): name, access
level, ordered parameter names. -/
structure ScriptFnDef where
  name : String
  access : FnAccess
  params : List String
deriving DecidableEq, Repr

/-- A runtime namespace module: its script-defined functions (in iteration
order) and its named sub-modules. -/
inductive RModule where
  | mk (script_fns : List ScriptFnDef) (sub_modules : List (String × RModule))

/-- The script-defined functions of a module (`Module::iter_script_fn`). -/
def RModule.script_fns : RModule → List ScriptFnDef
  | RModule.mk f _ => f

/-- The named sub-modules of a module (`Module::iter_sub_modules`). -/
def RModule.sub_modules : RModule → List (String × RModule)
  | RModule.mk _ s => s

/-- The call context as seen by `collect_fn_metadata`: the directly visible
namespaces (`ctx.iter_namespaces()`) and the imported modules with their
names (`ctx.iter_imports_raw()`). -/
structure NativeCallContext where
  namespaces : List RModule
  imports : List (String × RModule)

/-- A metadata field value: a string, a boolean, or an array. -/
inductive MetaVal where
  | str (s : String)
  | bool (b : Bool)
  | arr (l : List MetaVal)
deriving Repr

/-- A metadata record (`Map`): the underlying object map is keyed, so it is
embedded as a key/value association list in insertion order (all keys
inserted by `make_metadata` are distinct). -/
abbrev MetaMap := List (String × MetaVal)

/-- Modelled from the spec: the reserved anonymous-function name marker
(`crate::engine::FN_ANONYMOUS`; `engine.rs` is not among the provided
sources). -/
def FN_ANONYMOUS : String := "anon$"

/-- Modelled from the spec: the printed form of the namespace separator
token (`Token::DoubleColon.literal_syntax()`; the tokenizer is not among
the provided sources). -/
def doubleColonSyntax : String := "::"

/-- Translation of `collect_fn_metadata::make_metadata` (the `BTreeSet`
string-interning dictionary is semantically the identity on the key
strings and is elided): one record per function, with the optional owning
namespace, the name, the access level rendered as `"public"` /
`"private"`, the anonymous-name flag, and the ordered parameter names. -/
def make_metadata (ns : Option String) (func : ScriptFnDef) : MetaMap :=
  (match ns with
   | some n => [("namespace", MetaVal.str n)]
   | none => [])
  ++ [("name", MetaVal.str func.name),
      ("access", MetaVal.str
        (match func.access with
         | FnAccess.Public => "public"
         | FnAccess.Private => "private")),
      ("is_anonymous", MetaVal.bool (func.name.startsWith FN_ANONYMOUS)),
      ("params", MetaVal.arr (func.params.map MetaVal.str))]

mutual

/-- Translation of `collect_fn_metadata::scan_module`: record this module's
script-defined functions under the accumulated namespace, then recurse into
its sub-modules, extending the namespace with the double-colon separator. -/
def scan_module (ns : String) : RModule → List MetaMap
  | RModule.mk fns subs =>
      fns.map (make_metadata (some ns)) ++ scan_subs ns subs

/-- The sub-module loop of `scan_module`. -/
def scan_subs (ns : String) : List (String × RModule) → List MetaMap
  | [] => []
  | (n, m) :: rest =>
      scan_module (ns ++ doubleColonSyntax ++ n) m ++ scan_subs ns rest

end

/-- Translation of `collect_fn_metadata`: the script-defined functions of
the directly visible namespaces, recorded without a namespace key, followed
by a recursive scan of every imported module under its import name. -/
def collect_fn_metadata (ctx : NativeCallContext) : List MetaMap :=
  (ctx.namespaces.map (fun m => m.script_fns.map (make_metadata none))).flatten
  ++ (ctx.imports.map (fun p => scan_module p.1 p.2)).flatten

/-! ## Claim-side definitions

The following definitions restate, in the spec's own words, the surface
properties the claims quantify over; the theorems below compare them with
the source-derived definitions above. -/

/-- The type token of a declared parameter static type, per the spec's
type-signature contract: a path type names itself, `&str` is registered as
`ImmutableString`, references are registered under their referent, and
unsupported shapes have no token. -/
def typeTokenOf : RustType → Option String
  | RustType.path n => some n
  | RustType.ref (RustType.path n) =>
      if n = "str" then some "ImmutableString" else some n
  | RustType.mutRef (RustType.path n) => some n
  | _ => none

/-- The non-context declared parameters of a parameter list: a leading
parameter of the recognized call-context type is excluded. -/
def declNonCtxList : List FnParam → List FnParam
  | [] => []
  | p :: rest => if isCallContextType p.ty then rest else p :: rest

/-- The non-context declared parameters of a function declaration. -/
def declNonCtxParams (d : ItemFn) : List FnParam :=
  declNonCtxList d.params

/-- Pointwise relation between a declared parameter and the `ParamSpec`
the classifier assigns to it: same binding name and static type, not the
call-context parameter, and mode/token as classified. -/
def paramRel (q : FnParam) (p : ParamSpec) : Prop :=
  p.name = q.name ∧ p.static_type = q.ty ∧ p.is_call_context = false
    ∧ ∃ m tok, classifyParamTy q.ty = Except.ok (m, tok)
        ∧ p.mode = m ∧ p.token = some tok

/-- The function items directly inside a block, in order. -/
def fnItemsOf (items : List Item) : List ItemFn :=
  items.filterMap (fun i => match i with | Item.fn d => some d | _ => none)

/-- The retained-function outcome of processing one declaration: `none`
when the declaration is dropped, `some f` when it contributes `f` to the
module IR. -/
def retainedFn (d : ItemFn) : Except GenError (Option ExportedFn) :=
  (processFnItem d).map Prod.fst

/-- Whether one modifier key is the `skip` key. -/
def isSkipArg : RhaiFnArg → Bool
  | RhaiFnArg.skip => true
  | _ => false

/-- Whether a declaration carries an explicit `skip` modifier in its
(first) export-modifier attribute. -/
def explicitSkip (d : ItemFn) : Bool :=
  match firstRhaiFnArgs d.attrs with
  | some args => args.any isSkipArg
  | none => false

/-- The claim's exclusion condition: an explicit `skip` modifier, or
non-public visibility with no export-modifier attribute at all. -/
def skipCondition (d : ItemFn) : Bool :=
  explicitSkip d
    || (!(d.vis = Visibility.publicVis) && (firstRhaiFnArgs d.attrs).isNone)

/-- The modifier-detachment map on items: a function item loses its first
export-modifier attribute; every other item is untouched. -/
def stripItem : Item → Item
  | Item.fn d => Item.fn { d with attrs := removeFirstRhaiFn d.attrs }
  | i => i

/-- Whether an item still carries an export-modifier attribute. -/
def itemHasRhaiFn : Item → Bool
  | Item.fn d => d.attrs.any isRhaiFnAttr
  | Item.const c => c.attrs.any isRhaiFnAttr
  | Item.other _ => false

/-- The number of export-modifier attributes on a function item. -/
def rhaiFnCount (d : ItemFn) : Nat :=
  (d.attrs.filter isRhaiFnAttr).length

/-- The `set_var` registrations of a generated unit, in order. -/
def setVarEntries (regs : List Registration) : List (String × String) :=
  regs.filterMap
    (fun r =>
      match r with
      | Registration.setVar n v => some (n, v)
      | _ => none)

/-- The `set_fn` registrations of a generated unit, in order, abstracted
to (registered name, type signature). -/
def setFnEntries (regs : List Registration) : List (String × List String) :=
  regs.filterMap
    (fun r =>
      match r with
      | Registration.setFn n _ sig _ => some (n, sig)
      | _ => none)

/-- Claim-side list of the retained constants: every public constant under
its declared name with its literal value expression, in order; non-public
constants never, independent of any attribute. -/
def publicConstsOf (items : List Item) : List (String × String) :=
  items.filterMap
    (fun i =>
      match i with
      | Item.const c =>
          if c.vis = Visibility.publicVis then some (c.name, c.value) else none
      | _ => none)

/-- Candidate-count condition for the amended frame claim: at most one
export-modifier attribute on each function item, none on any other item. -/
def modifierCountOk : Item → Bool
  | Item.fn d => rhaiFnCount d ≤ 1
  | i => !itemHasRhaiFn i

/-- Joining of namespace path segments with the double-colon separator
token, per the claim. -/
def joinPath : List String → String
  | [] => ""
  | [n] => n
  | n :: rest => n ++ doubleColonSyntax ++ joinPath rest

mutual

/-- Claim-side enumeration of the script-defined functions reachable
inside one module, each with its accumulated namespace path segments. -/
def specScan (path : List String) : RModule → List (List String × ScriptFnDef)
  | RModule.mk fns subs =>
      fns.map (fun f => (path, f)) ++ specScanSubs path subs

/-- The sub-module loop of `specScan`: each nested namespace appends its
own segment to the path. -/
def specScanSubs (path : List String) :
    List (String × RModule) → List (List String × ScriptFnDef)
  | [] => []
  | (n, m) :: rest => specScan (path ++ [n]) m ++ specScanSubs path rest

end

/-- Claim-side enumeration of every script-defined function reachable from
a visible namespace: top-level-scope functions carry no namespace path;
imported modules are traversed recursively under their import name. -/
def specReachable (ctx : NativeCallContext) :
    List (Option (List String) × ScriptFnDef) :=
  (ctx.namespaces.map
      (fun m => m.script_fns.map
        (fun f => ((none : Option (List String)), f)))).flatten
  ++ (ctx.imports.map
      (fun p => (specScan [p.1] p.2).map (fun q => (some q.1, q.2)))).flatten

/-- Claim-side record shape: the namespace key is present exactly for
non-top-level functions (path segments joined with the separator token),
the access level renders as `"public"` / `"private"`, the anonymous flag
holds iff the name starts with the reserved prefix, and the parameter
names appear in order. -/
def specRecord : Option (List String) × ScriptFnDef → MetaMap
  | (pathOpt, f) =>
      (match pathOpt with
       | some path => [("namespace", MetaVal.str (joinPath path))]
       | none => [])
      ++ [("name", MetaVal.str f.name),
          ("access", MetaVal.str
            (match f.access with
             | FnAccess.Public => "public"
             | FnAccess.Private => "private")),
          ("is_anonymous", MetaVal.bool (f.name.startsWith FN_ANONYMOUS)),
          ("params", MetaVal.arr (f.params.map MetaVal.str))]

/-! ## Theorems -/

/-- C10: a module item without brace-delimited content parses without
failure into a Module IR whose function list and constant list are both
empty. -/
theorem bodiless_module_parses_empty (m : ItemMod) (h : m.content = none) :
    Module.parse m = Except.ok ⟨some m, [], []⟩ := by
  unfold Module.parse
  rw [h]

/-- Witness for `bodiless_module_parses_empty` on a concrete bodiless
module declaration. -/
theorem bodiless_module_parses_empty_witness :
    (ItemMod.mk Visibility.publicVis "empty" none).content = none
      ∧ Module.parse (ItemMod.mk Visibility.publicVis "empty" none)
          = Except.ok ⟨some (ItemMod.mk Visibility.publicVis "empty" none), [], []⟩ :=
  ⟨rfl, bodiless_module_parses_empty (ItemMod.mk Visibility.publicVis "empty" none) rfl⟩

/-- C3: when the received argument count differs from the function's
non-context parameter count, the emitted call behavior fails the arity
assertion — a non-recoverable panic, not a recoverable returned error —
with the argument slots untouched, before any argument is extracted. -/
theorem arity_mismatch_is_assertion (f : ExportedFn)
    (impl : List Dynamic → Except ERR Dynamic) (args : List Dynamic)
    (pos : Position) (h : args.length ≠ f.arg_count) :
    dispatchCall f impl args pos
      = (CallResult.panic
          ("wrong arg count: " ++ toString args.length ++ " != "
            ++ toString f.arg_count),
         args) := by
  unfold dispatchCall
  rw [if_neg h]

/-- Witness for `arity_mismatch_is_assertion`: a one-parameter function
called with an empty argument list panics with the slots untouched. -/
theorem arity_mismatch_is_assertion_witness :
    ([] : List Dynamic).length
        ≠ (ExportedFn.mk "add_one_to"
            [⟨"x", RustType.path "INT", PassMode.byValue, false, some "INT"⟩]
            (some (RustType.path "INT")) ExportedFnParams.defaults).arg_count
      ∧ dispatchCall
          (ExportedFn.mk "add_one_to"
            [⟨"x", RustType.path "INT", PassMode.byValue, false, some "INT"⟩]
            (some (RustType.path "INT")) ExportedFnParams.defaults)
          (fun _ => Except.ok Dynamic.unitVal) [] (Position.line 1)
        = (CallResult.panic "wrong arg count: 0 != 1", []) :=
  ⟨by decide,
   arity_mismatch_is_assertion
     (ExportedFn.mk "add_one_to"
       [⟨"x", RustType.path "INT", PassMode.byValue, false, some "INT"⟩]
       (some (RustType.path "INT")) ExportedFnParams.defaults)
     (fun _ => Except.ok Dynamic.unitVal) [] (Position.line 1) (by decide)⟩

/-- C5: `set_tag` rejects a tag below `Tag::MIN` or above `Tag::MAX` with
a recoverable error carrying a descriptive message and the call position,
and for every tag inside `[Tag::MIN, Tag::MAX]` it stores the tag and
succeeds. -/
theorem set_tag_range_outcome (v : Dynamic) (t : Int) (p : Position) :
    (t < Tag.MIN →
      (set_tag_dispatch v t p).1
        = CallResult.err (ERR.ErrorArithmetic
            (toString t ++ " is too small to fit into a tag (must be between "
              ++ toString Tag.MIN ++ " and " ++ toString Tag.MAX ++ ")") p))
    ∧ (t > Tag.MAX →
      (set_tag_dispatch v t p).1
        = CallResult.err (ERR.ErrorArithmetic
            (toString t ++ " is too large to fit into a tag (must be between "
              ++ toString Tag.MIN ++ " and " ++ toString Tag.MAX ++ ")") p))
    ∧ (Tag.MIN ≤ t → t ≤ Tag.MAX →
      set_tag_dispatch v t p = (CallResult.ok Dynamic.unitVal, ⟨v.ty, v.val, t⟩)) := by
  refine ⟨fun h => ?_, fun h => ?_, fun h1 h2 => ?_⟩
  · simp [set_tag_dispatch, set_tag, fill_position, h]
  · have hn : ¬ t < Tag.MIN := by
      simp only [Tag.MIN, Tag.MAX] at h ⊢
      omega
    simp [set_tag_dispatch, set_tag, fill_position, h, hn]
  · have hn1 : ¬ t < Tag.MIN := not_lt.mpr h1
    have hn2 : ¬ t > Tag.MAX := not_lt.mpr h2
    simp [set_tag_dispatch, set_tag, hn1, hn2]

/-- Witness for `set_tag_range_outcome`: an in-range call stores the tag;
the out-of-range hypotheses are exercised by the corrected claim's sibling
facts at 40000 and -40000 via the same theorem. -/
theorem set_tag_range_outcome_witness :
    ((40000 : Int) > Tag.MAX
      ∧ (set_tag_dispatch ⟨"i64", 5, 3⟩ 40000 (Position.line 7)).1
          = CallResult.err (ERR.ErrorArithmetic
              ("40000 is too large to fit into a tag (must be between "
                ++ toString Tag.MIN ++ " and " ++ toString Tag.MAX ++ ")")
              (Position.line 7)))
    ∧ (Tag.MIN ≤ (12 : Int) ∧ (12 : Int) ≤ Tag.MAX
      ∧ set_tag_dispatch ⟨"i64", 5, 3⟩ 12 (Position.line 7)
          = (CallResult.ok Dynamic.unitVal, ⟨"i64", 5, 12⟩)) :=
  ⟨⟨by decide,
    (set_tag_range_outcome ⟨"i64", 5, 3⟩ 40000 (Position.line 7)).2.1 (by decide)⟩,
   by decide, by decide,
   (set_tag_range_outcome ⟨"i64", 5, 3⟩ 12 (Position.line 7)).2.2
     (by decide) (by decide)⟩

/-- C9: on the out-of-range error path `set_tag` leaves the boxed value —
its existing tag included — completely unchanged. -/
theorem set_tag_error_frame (v : Dynamic) (t : Int)
    (h : t < Tag.MIN ∨ t > Tag.MAX) : (set_tag v t).2 = v := by
  unfold set_tag
  split_ifs with h1 h2
  · rfl
  · rfl
  · exfalso
    rcases h with h | h
    · exact h1 h
    · exact h2 h

/-- Witness for `set_tag_error_frame`: a too-large tag leaves the value,
existing tag included, unchanged. -/
theorem set_tag_error_frame_witness :
    ((99999 : Int) < Tag.MIN ∨ (99999 : Int) > Tag.MAX)
      ∧ (set_tag ⟨"map", 11, 9⟩ 99999).2 = ⟨"map", 11, 9⟩ :=
  ⟨Or.inr (by decide), set_tag_error_frame ⟨"map", 11, 9⟩ 99999 (Or.inr (by decide))⟩

/-! ### Helper lemmas: attribute handling and parse anatomy -/

theorem removeFirstRhaiFn_of_none (attrs : List Attr)
    (h : firstRhaiFnArgs attrs = none) : removeFirstRhaiFn attrs = attrs := by
  induction attrs with
  | nil => rfl
  | cons a rest ih =>
      cases a with
      | rhaiFn args => simp [firstRhaiFnArgs] at h
      | other n =>
          simp only [firstRhaiFnArgs] at h
          simp only [removeFirstRhaiFn, ih h]

theorem inner_fn_attributes_snd (d : ItemFn) :
    (inner_fn_attributes d).2 = { d with attrs := removeFirstRhaiFn d.attrs } := by
  unfold inner_fn_attributes
  cases hf : firstRhaiFnArgs d.attrs with
  | some args => rfl
  | none =>
      have hr := removeFirstRhaiFn_of_none d.attrs hf
      cases d with
      | mk attrs vis name params ret body =>
          simp only at hr
          cases vis <;> simp [hr]

theorem parseRhaiFnArgsFrom_skip (args : List RhaiFnArg) :
    ∀ (p0 p : ExportedFnParams), parseRhaiFnArgsFrom p0 args = Except.ok p →
      p.skip = (p0.skip || args.any isSkipArg) := by
  induction args with
  | nil =>
      intro p0 p h
      simp only [parseRhaiFnArgsFrom, Except.ok.injEq] at h
      subst h
      simp
  | cons a rest ih =>
      intro p0 p h
      cases a <;> simp only [parseRhaiFnArgsFrom, applyRhaiFnArg] at h
      case malformed s => simp at h
      all_goals simp [List.any_cons, isSkipArg, ih _ p h]

theorem inner_fn_attributes_skip (d : ItemFn) (params : ExportedFnParams)
    (h : (inner_fn_attributes d).1 = Except.ok params) :
    params.skip = skipCondition d := by
  unfold inner_fn_attributes at h
  unfold skipCondition explicitSkip
  cases hf : firstRhaiFnArgs d.attrs with
  | some args =>
      rw [hf] at h
      simp only at h
      have := parseRhaiFnArgsFrom_skip args ExportedFnParams.defaults params h
      simp [hf, this, ExportedFnParams.defaults]
  | none =>
      rw [hf] at h
      cases hv : d.vis <;> rw [hv] at h <;> simp only [Except.ok.injEq] at h <;>
        subst h <;>
        simp [hf, hv, ExportedFnParams.defaults, ExportedFnParams.skipAll]

theorem processFnItem_parts (d : ItemFn) (o : Option ExportedFn) (d2 : ItemFn)
    (h : processFnItem d = Except.ok (o, d2)) :
    d2 = { d with attrs := removeFirstRhaiFn d.attrs }
      ∧ ∃ params ps,
          (inner_fn_attributes d).1 = Except.ok params
          ∧ classifyParams true d.params = Except.ok ps
          ∧ o = (if params.skip then none
                 else some ⟨d.name, ps, d.ret, params⟩) := by
  unfold processFnItem at h
  rcases hI : inner_fn_attributes d with ⟨pRes, dd⟩
  have hdd : dd = { d with attrs := removeFirstRhaiFn d.attrs } := by
    have hs := inner_fn_attributes_snd d
    rw [hI] at hs
    exact hs
  rw [hI] at h
  cases pRes with
  | error e => simp at h
  | ok params =>
      simp only at h
      unfold ExportedFn.parseFn at h
      cases hC : classifyParams true dd.params with
      | error e => rw [hC] at h; simp at h
      | ok ps =>
          rw [hC] at h
          simp only [Except.ok.injEq, Prod.mk.injEq] at h
          have hparams : dd.params = d.params := by rw [hdd]
          have hname : dd.name = d.name := by rw [hdd]
          have hret : dd.ret = d.ret := by rw [hdd]
          refine ⟨h.2 ▸ hdd, params, ps, ?_, ?_, ?_⟩
          · rfl
          · rw [← hparams]; exact hC
          · rw [← h.1, hname, hret]

theorem fnItemsOf_cons_fn (d : ItemFn) (rest : List Item) :
    fnItemsOf (Item.fn d :: rest) = d :: fnItemsOf rest := rfl

theorem fnItemsOf_cons_const (c : ItemConst) (rest : List Item) :
    fnItemsOf (Item.const c :: rest) = fnItemsOf rest := rfl

theorem fnItemsOf_cons_other (s : String) (rest : List Item) :
    fnItemsOf (Item.other s :: rest) = fnItemsOf rest := rfl

theorem parseItems_parts (items : List Item) :
    ∀ (fs : List ExportedFn) (its : List Item),
      parseItems items = Except.ok (fs, its) →
      its = items.map stripItem
        ∧ ((fnItemsOf items).filter (fun d => !skipCondition d)).mapM retainedFn
            = Except.ok (fs.map some) := by
  induction items with
  | nil =>
      intro fs its h
      simp only [parseItems, Except.ok.injEq, Prod.mk.injEq] at h
      obtain ⟨h1, h2⟩ := h
      subst h1; subst h2
      exact ⟨rfl, rfl⟩
  | cons i rest ih =>
      intro fs its h
      cases i with
      | fn d =>
          simp only [parseItems] at h
          cases hP : processFnItem d with
          | error e => rw [hP] at h; simp at h
          | ok od =>
              rcases od with ⟨o, d2⟩
              rw [hP] at h
              cases hR : parseItems rest with
              | error e => rw [hR] at h; simp at h
              | ok fsits =>
                  rcases fsits with ⟨fs', its'⟩
                  rw [hR] at h
                  simp only [Except.ok.injEq, Prod.mk.injEq] at h
                  obtain ⟨hfs, hits⟩ := h
                  obtain ⟨hih1, hih2⟩ := ih fs' its' hR
                  obtain ⟨hd2, params, ps, hpar, _, ho⟩ := processFnItem_parts d o d2 hP
                  have hskip : params.skip = skipCondition d :=
                    inner_fn_attributes_skip d params hpar
                  constructor
                  · rw [← hits, hih1, hd2]
                    rfl
                  · rw [fnItemsOf_cons_fn]
                    cases hS : skipCondition d with
                    | true =>
                        have honone : o = none := by
                          rw [ho, hskip, hS]
                          rfl
                        rw [List.filter_cons_of_neg (by simp [hS])]
                        rw [← hfs, honone]
                        exact hih2
                    | false =>
                        have hosome :
                            o = some ⟨d.name, ps, d.ret, params⟩ := by
                          rw [ho, hskip, hS]
                          rfl
                        rw [List.filter_cons_of_pos (by simp [hS])]
                        rw [← hfs, hosome]
                        have hrd : retainedFn d
                            = Except.ok (some ⟨d.name, ps, d.ret, params⟩) := by
                          unfold retainedFn
                          rw [hP, hosome]
                          rfl
                        rw [List.mapM_cons, hrd, hih2]
                        rfl
      | const c =>
          simp only [parseItems] at h
          cases hR : parseItems rest with
          | error e => rw [hR] at h; simp at h
          | ok fsits =>
              rcases fsits with ⟨fs', its'⟩
              rw [hR] at h
              simp only [Except.ok.injEq, Prod.mk.injEq] at h
              obtain ⟨hfs, hits⟩ := h
              obtain ⟨hih1, hih2⟩ := ih fs' its' hR
              refine ⟨?_, ?_⟩
              · rw [← hits, hih1]; rfl
              · rw [fnItemsOf_cons_const]
                rw [← hfs]
                exact hih2
      | other s =>
          simp only [parseItems] at h
          cases hR : parseItems rest with
          | error e => rw [hR] at h; simp at h
          | ok fsits =>
              rcases fsits with ⟨fs', its'⟩
              rw [hR] at h
              simp only [Except.ok.injEq, Prod.mk.injEq] at h
              obtain ⟨hfs, hits⟩ := h
              obtain ⟨hih1, hih2⟩ := ih fs' its' hR
              refine ⟨?_, ?_⟩
              · rw [← hits, hih1]; rfl
              · rw [fnItemsOf_cons_other]
                rw [← hfs]
                exact hih2

theorem setFnEntries_generate_body (fns : List ExportedFn)
    (consts : List ExportedConst) :
    setFnEntries (generate_body fns consts).1
      = fns.map (fun f => (registeredName f, f.input_types)) := by
  unfold generate_body setFnEntries
  rw [List.filterMap_append]
  have h1 : List.filterMap
      (fun r =>
        match r with
        | Registration.setFn n _ sig _ => some (n, sig)
        | _ => none)
      (consts.map (fun c => Registration.setVar c.1 c.2)) = [] := by
    induction consts with
    | nil => rfl
    | cons c rest ih => exact ih
  have h2 : List.filterMap
      (fun r =>
        match r with
        | Registration.setFn n _ sig _ => some (n, sig)
        | _ => none)
      (fns.map (fun f =>
        Registration.setFn (registeredName f) FnAccess.Public f.input_types
          (f.name ++ "_token")))
      = fns.map (fun f => (registeredName f, f.input_types)) := by
    induction fns with
    | nil => rfl
    | cons f rest ih => exact congrArg (List.cons _) ih
  rw [h1, h2, List.append_nil]

theorem setVarEntries_generate_body (fns : List ExportedFn)
    (consts : List ExportedConst) :
    setVarEntries (generate_body fns consts).1 = consts := by
  unfold generate_body setVarEntries
  rw [List.filterMap_append]
  have h1 : List.filterMap
      (fun r =>
        match r with
        | Registration.setVar n v => some (n, v)
        | _ => none)
      (fns.map (fun f =>
        Registration.setFn (registeredName f) FnAccess.Public f.input_types
          (f.name ++ "_token"))) = [] := by
    induction fns with
    | nil => rfl
    | cons f rest ih => exact ih
  have h2 : List.filterMap
      (fun r =>
        match r with
        | Registration.setVar n v => some (n, v)
        | _ => none)
      (consts.map (fun c => Registration.setVar c.1 c.2)) = consts := by
    induction consts with
    | nil => rfl
    | cons c rest ih => exact congrArg (List.cons _) ih
  rw [h1, h2, List.nil_append]

theorem extractConsts_cons_const (c : ItemConst) (rest : List Item) :
    extractConsts (Item.const c :: rest)
      = (if c.vis = Visibility.publicVis then [(c.name, c.value)] else [])
          ++ extractConsts rest := by
  cases c with
  | mk attrs vis name ty value => cases vis <;> rfl

theorem publicConstsOf_cons_const (c : ItemConst) (rest : List Item) :
    publicConstsOf (Item.const c :: rest)
      = (if c.vis = Visibility.publicVis then [(c.name, c.value)] else [])
          ++ publicConstsOf rest := by
  cases c with
  | mk attrs vis name ty value => cases vis <;> rfl

theorem extractConsts_strip (items : List Item) :
    extractConsts (items.map stripItem) = publicConstsOf items := by
  induction items with
  | nil => rfl
  | cons i rest ih =>
      cases i with
      | fn d =>
          show extractConsts (Item.fn _ :: List.map stripItem rest) = _
          exact ih
      | const c =>
          show extractConsts (Item.const c :: List.map stripItem rest) = _
          rw [extractConsts_cons_const, publicConstsOf_cons_const, ih]
      | other s =>
          show extractConsts (Item.other s :: List.map stripItem rest) = _
          exact ih

theorem Module.parse_some (m : ItemMod) (items : List Item)
    (h : m.content = some items) :
    Module.parse m
      = (match parseItems items with
         | Except.ok (fs, items2) =>
             Except.ok ⟨some ⟨m.vis, m.name, some items2⟩, fs,
               extractConsts items2⟩
         | Except.error e => Except.error e) := by
  unfold Module.parse
  rw [h]

theorem Module.parse_parts (m : ItemMod) (items : List Item) (mod : Module)
    (hc : m.content = some items) (hp : Module.parse m = Except.ok mod) :
    ∃ fs its, parseItems items = Except.ok (fs, its)
      ∧ mod = ⟨some ⟨m.vis, m.name, some its⟩, fs, extractConsts its⟩ := by
  rw [Module.parse_some m items hc] at hp
  cases hPI : parseItems items with
  | error e => rw [hPI] at hp; simp at hp
  | ok p =>
      rcases p with ⟨fs, its⟩
      rw [hPI] at hp
      simp only [Except.ok.injEq] at hp
      exact ⟨fs, its, rfl, hp.symm⟩

/-- C2: a function declaration with an explicit `skip` modifier, or with
non-public visibility and no export-modifier attribute, contributes
nothing to the assembled Module IR — the retained functions arise, in
order, exactly from the declarations that do not satisfy the exclusion
condition — and the generated output holds exactly one dispatcher and one
`set_fn` registration per retained function, hence none for the excluded
declaration. -/
theorem skipped_fn_never_exported (m : ItemMod) (items : List Item)
    (mod : Module) (hc : m.content = some items)
    (hp : Module.parse m = Except.ok mod) :
    ((fnItemsOf items).filter (fun d => !skipCondition d)).mapM retainedFn
        = Except.ok (mod.fns.map some)
      ∧ (Module.generate mod).dispatchers = mod.fns.map mkDispatcher
      ∧ setFnEntries (Module.generate mod).registrations
          = mod.fns.map (fun f => (registeredName f, f.input_types)) := by
  obtain ⟨fs, its, hPI, hmod⟩ := Module.parse_parts m items mod hc hp
  refine ⟨?_, ?_, ?_⟩
  · rw [hmod]
    exact (parseItems_parts items fs its hPI).2
  · rfl
  · show setFnEntries (generate_body mod.fns mod.consts).1 = _
    exact setFnEntries_generate_body mod.fns mod.consts

/-- Witness for `skipped_fn_never_exported`: a module with one skipped
function, one private function and one public function retains only the
public one and generates exactly one dispatcher and one registration. -/
theorem skipped_fn_never_exported_witness :
    (ItemMod.mk Visibility.publicVis "one_fn"
        (some [Item.fn ⟨[Attr.rhaiFn [RhaiFnArg.skip]], Visibility.publicVis,
                 "get_mystic_number", [], some (RustType.path "INT"), "42"⟩,
               Item.fn ⟨[], Visibility.inheritedVis, "hidden", [], none, "0"⟩,
               Item.fn ⟨[], Visibility.publicVis, "add_one_to",
                 [⟨"x", RustType.path "INT"⟩], some (RustType.path "INT"),
                 "x + 1"⟩])).content
      = some [Item.fn ⟨[Attr.rhaiFn [RhaiFnArg.skip]], Visibility.publicVis,
                "get_mystic_number", [], some (RustType.path "INT"), "42"⟩,
              Item.fn ⟨[], Visibility.inheritedVis, "hidden", [], none, "0"⟩,
              Item.fn ⟨[], Visibility.publicVis, "add_one_to",
                [⟨"x", RustType.path "INT"⟩], some (RustType.path "INT"),
                "x + 1"⟩]
    ∧ ((fnItemsOf [Item.fn ⟨[Attr.rhaiFn [RhaiFnArg.skip]], Visibility.publicVis,
            "get_mystic_number", [], some (RustType.path "INT"), "42"⟩,
          Item.fn ⟨[], Visibility.inheritedVis, "hidden", [], none, "0"⟩,
          Item.fn ⟨[], Visibility.publicVis, "add_one_to",
            [⟨"x", RustType.path "INT"⟩], some (RustType.path "INT"),
            "x + 1"⟩]).filter (fun d => !skipCondition d)).mapM retainedFn
        = Except.ok
            ((Module.mk
               (some ⟨Visibility.publicVis, "one_fn",
                 some [Item.fn ⟨[], Visibility.publicVis, "get_mystic_number",
                         [], some (RustType.path "INT"), "42"⟩,
                       Item.fn ⟨[], Visibility.inheritedVis, "hidden", [],
                         none, "0"⟩,
                       Item.fn ⟨[], Visibility.publicVis, "add_one_to",
                         [⟨"x", RustType.path "INT"⟩],
                         some (RustType.path "INT"), "x + 1"⟩]⟩)
               [⟨"add_one_to",
                 [⟨"x", RustType.path "INT", PassMode.byValue, false,
                   some "INT"⟩],
                 some (RustType.path "INT"), ExportedFnParams.defaults⟩]
               []).fns.map some) := by
  refine ⟨rfl, ?_⟩
  have h := skipped_fn_never_exported
    (ItemMod.mk Visibility.publicVis "one_fn"
      (some [Item.fn ⟨[Attr.rhaiFn [RhaiFnArg.skip]], Visibility.publicVis,
               "get_mystic_number", [], some (RustType.path "INT"), "42"⟩,
             Item.fn ⟨[], Visibility.inheritedVis, "hidden", [], none, "0"⟩,
             Item.fn ⟨[], Visibility.publicVis, "add_one_to",
               [⟨"x", RustType.path "INT"⟩], some (RustType.path "INT"),
               "x + 1"⟩]))
    [Item.fn ⟨[Attr.rhaiFn [RhaiFnArg.skip]], Visibility.publicVis,
       "get_mystic_number", [], some (RustType.path "INT"), "42"⟩,
     Item.fn ⟨[], Visibility.inheritedVis, "hidden", [], none, "0"⟩,
     Item.fn ⟨[], Visibility.publicVis, "add_one_to",
       [⟨"x", RustType.path "INT"⟩], some (RustType.path "INT"), "x + 1"⟩]
    (Module.mk
      (some ⟨Visibility.publicVis, "one_fn",
        some [Item.fn ⟨[], Visibility.publicVis, "get_mystic_number", [],
                some (RustType.path "INT"), "42"⟩,
              Item.fn ⟨[], Visibility.inheritedVis, "hidden", [], none, "0"⟩,
              Item.fn ⟨[], Visibility.publicVis, "add_one_to",
                [⟨"x", RustType.path "INT"⟩], some (RustType.path "INT"),
                "x + 1"⟩]⟩)
      [⟨"add_one_to",
        [⟨"x", RustType.path "INT", PassMode.byValue, false, some "INT"⟩],
        some (RustType.path "INT"), ExportedFnParams.defaults⟩]
      [])
    rfl (by rfl)
  exact h.1

/-- C6: the `set_var` registrations of the generated unit are exactly the
public constants of the block, in order, each under its declared name with
its literal value expression; non-public constants never appear,
independent of any attribute on them. -/
theorem public_consts_registered (m : ItemMod) (items : List Item)
    (mod : Module) (hc : m.content = some items)
    (hp : Module.parse m = Except.ok mod) :
    setVarEntries (Module.generate mod).registrations = publicConstsOf items := by
  obtain ⟨fs, its, hPI, hmod⟩ := Module.parse_parts m items mod hc hp
  have hits : its = items.map stripItem := (parseItems_parts items fs its hPI).1
  have h1 : setVarEntries (Module.generate mod).registrations = mod.consts :=
    setVarEntries_generate_body mod.fns mod.consts
  rw [h1, hmod]
  show extractConsts its = _
  rw [hits]
  exact extractConsts_strip items

/-- Witness for `public_consts_registered`: one public and one private
constant; only the public one is registered. -/
theorem public_consts_registered_witness :
    Module.parse (ItemMod.mk Visibility.publicVis "one_constant"
        (some [Item.const ⟨[], Visibility.publicVis, "MYSTIC_NUMBER",
                 RustType.path "INT", "42"⟩,
               Item.const ⟨[Attr.rhaiFn []], Visibility.inheritedVis, "SECRET",
                 RustType.path "INT", "7"⟩]))
      = Except.ok
          ⟨some ⟨Visibility.publicVis, "one_constant",
            some [Item.const ⟨[], Visibility.publicVis, "MYSTIC_NUMBER",
                    RustType.path "INT", "42"⟩,
                  Item.const ⟨[Attr.rhaiFn []], Visibility.inheritedVis,
                    "SECRET", RustType.path "INT", "7"⟩]⟩,
           [], [("MYSTIC_NUMBER", "42")]⟩
    ∧ setVarEntries (Module.generate
        ⟨some ⟨Visibility.publicVis, "one_constant",
          some [Item.const ⟨[], Visibility.publicVis, "MYSTIC_NUMBER",
                  RustType.path "INT", "42"⟩,
                Item.const ⟨[Attr.rhaiFn []], Visibility.inheritedVis,
                  "SECRET", RustType.path "INT", "7"⟩]⟩,
         [], [("MYSTIC_NUMBER", "42")]⟩).registrations
      = publicConstsOf
          [Item.const ⟨[], Visibility.publicVis, "MYSTIC_NUMBER",
             RustType.path "INT", "42"⟩,
           Item.const ⟨[Attr.rhaiFn []], Visibility.inheritedVis, "SECRET",
             RustType.path "INT", "7"⟩] :=
  ⟨by rfl,
   public_consts_registered
     (ItemMod.mk Visibility.publicVis "one_constant"
       (some [Item.const ⟨[], Visibility.publicVis, "MYSTIC_NUMBER",
                RustType.path "INT", "42"⟩,
              Item.const ⟨[Attr.rhaiFn []], Visibility.inheritedVis, "SECRET",
                RustType.path "INT", "7"⟩]))
     [Item.const ⟨[], Visibility.publicVis, "MYSTIC_NUMBER",
        RustType.path "INT", "42"⟩,
      Item.const ⟨[Attr.rhaiFn []], Visibility.inheritedVis, "SECRET",
        RustType.path "INT", "7"⟩]
     ⟨some ⟨Visibility.publicVis, "one_constant",
       some [Item.const ⟨[], Visibility.publicVis, "MYSTIC_NUMBER",
               RustType.path "INT", "42"⟩,
             Item.const ⟨[Attr.rhaiFn []], Visibility.inheritedVis, "SECRET",
               RustType.path "INT", "7"⟩]⟩,
      [], [("MYSTIC_NUMBER", "42")]⟩
     rfl (by rfl)⟩

/-! ### Helper lemmas: signature classification -/

theorem classifyParamTy_cases (t : RustType) (m : PassMode) (tok : String)
    (h : classifyParamTy t = Except.ok (m, tok)) :
    typeTokenOf t = some tok
      ∧ (m = PassMode.byMutableRef ↔ ∃ u, t = RustType.mutRef u) := by
  cases t with
  | path n =>
      simp only [classifyParamTy, Except.ok.injEq, Prod.mk.injEq] at h
      obtain ⟨hm, ht⟩ := h
      subst hm; subst ht
      refine ⟨rfl, ?_⟩
      constructor
      · intro hb; cases hb
      · rintro ⟨u, hu⟩; cases hu
  | ref inner =>
      cases inner with
      | path n =>
          by_cases hs : n = "str"
          · subst hs
            simp only [classifyParamTy, reduceIte, Except.ok.injEq,
              Prod.mk.injEq] at h
            obtain ⟨hm, ht⟩ := h
            subst hm; subst ht
            refine ⟨by simp [typeTokenOf], ?_⟩
            constructor
            · intro hb; cases hb
            · rintro ⟨u, hu⟩; cases hu
          · have hred : classifyParamTy (RustType.ref (RustType.path n))
                = Except.ok (PassMode.byImmutableRef, n) := by
              show (if n = "str"
                  then Except.ok (PassMode.byImmutableRef, "ImmutableString")
                  else (Except.ok (PassMode.byImmutableRef, n) :
                    Except GenError (PassMode × String)))
                = Except.ok (PassMode.byImmutableRef, n)
              rw [if_neg hs]
            rw [hred] at h
            simp only [Except.ok.injEq, Prod.mk.injEq] at h
            obtain ⟨hm, ht⟩ := h
            subst hm; subst ht
            refine ⟨by simp [typeTokenOf, hs], ?_⟩
            constructor
            · intro hb; cases hb
            · rintro ⟨u, hu⟩; cases hu
      | ref i2 => simp [classifyParamTy] at h
      | mutRef i2 => simp [classifyParamTy] at h
  | mutRef inner =>
      cases inner with
      | path n =>
          simp only [classifyParamTy, Except.ok.injEq, Prod.mk.injEq] at h
          obtain ⟨hm, ht⟩ := h
          subst hm; subst ht
          exact ⟨rfl, ⟨fun _ => ⟨RustType.path n, rfl⟩, fun _ => rfl⟩⟩
      | ref i2 => simp [classifyParamTy] at h
      | mutRef i2 => simp [classifyParamTy] at h

theorem classifyParams_false_rel (l : List FnParam) :
    ∀ ps, classifyParams false l = Except.ok ps → List.Forall₂ paramRel l ps := by
  induction l with
  | nil =>
      intro ps h
      simp only [classifyParams, Except.ok.injEq] at h
      subst h
      exact List.Forall₂.nil
  | cons q rest ih =>
      intro ps h
      simp only [classifyParams] at h
      rw [if_neg (by simp)] at h
      cases hc : classifyParamTy q.ty with
      | error e => rw [hc] at h; simp at h
      | ok mt =>
          rcases mt with ⟨m, tok⟩
          rw [hc] at h
          cases hr : classifyParams false rest with
          | error e => rw [hr] at h; simp at h
          | ok tail =>
              rw [hr] at h
              simp only [Except.ok.injEq] at h
              subst h
              exact List.Forall₂.cons ⟨rfl, rfl, rfl, m, tok, hc, rfl, rfl⟩
                (ih tail hr)

theorem filter_nonctx_of_rel {l : List FnParam} {ps : List ParamSpec}
    (h : List.Forall₂ paramRel l ps) :
    ps.filter (fun p => !p.is_call_context) = ps := by
  induction h with
  | nil => rfl
  | cons hqp hrest ih =>
      rw [List.filter_cons_of_pos (by simp [hqp.2.2.1]), ih]

theorem classifyParams_true_rel (l : List FnParam) (ps : List ParamSpec)
    (h : classifyParams true l = Except.ok ps) :
    List.Forall₂ paramRel (declNonCtxList l)
      (ps.filter (fun p => !p.is_call_context)) := by
  cases l with
  | nil =>
      simp only [classifyParams, Except.ok.injEq] at h
      subst h
      exact List.Forall₂.nil
  | cons q rest =>
      simp only [classifyParams] at h
      by_cases hctx : isCallContextType q.ty
      · rw [if_pos (by simp [hctx])] at h
        cases hr : classifyParams false rest with
        | error e => rw [hr] at h; simp at h
        | ok tail =>
            rw [hr] at h
            simp only [Except.ok.injEq] at h
            subst h
            have hrel := classifyParams_false_rel rest tail hr
            rw [List.filter_cons_of_neg (by simp)]
            rw [filter_nonctx_of_rel hrel]
            simp only [declNonCtxList]
            rw [if_pos hctx]
            exact hrel
      · rw [if_neg (by simp [hctx])] at h
        cases hc : classifyParamTy q.ty with
        | error e => rw [hc] at h; simp at h
        | ok mt =>
            rcases mt with ⟨m, tok⟩
            rw [hc] at h
            cases hr : classifyParams false rest with
            | error e => rw [hr] at h; simp at h
            | ok tail =>
                rw [hr] at h
                simp only [Except.ok.injEq] at h
                subst h
                have hrel := classifyParams_false_rel rest tail hr
                rw [List.filter_cons_of_pos (by simp)]
                rw [filter_nonctx_of_rel hrel]
                simp only [declNonCtxList]
                rw [if_neg hctx]
                exact List.Forall₂.cons ⟨rfl, rfl, rfl, m, tok, hc, rfl, rfl⟩
                  hrel

theorem tokens_of_rel {l : List FnParam} {ps : List ParamSpec}
    (h : List.Forall₂ paramRel l ps) :
    l.mapM (fun q => typeTokenOf q.ty) = some (ps.filterMap ParamSpec.token)
      ∧ (ps.filterMap ParamSpec.token).length = l.length := by
  induction h with
  | nil => exact ⟨rfl, rfl⟩
  | cons hqp hrest ih =>
      obtain ⟨hname, hty, hctx, m, tok, hcl, hm, htok⟩ := hqp
      have htt := (classifyParamTy_cases _ m tok hcl).1
      constructor
      · rw [List.mapM_cons, htt, ih.1]
        simp [List.filterMap_cons, htok]
      · simp [List.filterMap_cons, htok, ih.2]

theorem processFnItem_fn_eq (d : ItemFn) (f : ExportedFn) (d2 : ItemFn)
    (h : processFnItem d = Except.ok (some f, d2)) :
    ∃ params ps, classifyParams true d.params = Except.ok ps
      ∧ f = ⟨d.name, ps, d.ret, params⟩ := by
  obtain ⟨_, params, ps, _, hcl, ho⟩ := processFnItem_parts d (some f) d2 h
  refine ⟨params, ps, hcl, ?_⟩
  by_cases hs : params.skip
  · rw [if_pos hs] at ho; cases ho
  · rw [if_neg hs] at ho
    exact (Option.some.injEq _ _ ▸ ho)

/-- C1: for every function declaration accepted without failure, the
dispatcher's `input_types` list has length equal to the non-context
declared parameter count, each token being the type token of the
corresponding declared parameter's static type in declared order; and
every registration emitted for the function passes exactly that list as
the type signature. -/
theorem dispatcher_type_signature (d : ItemFn) (f : ExportedFn) (d2 : ItemFn)
    (h : processFnItem d = Except.ok (some f, d2)) :
    f.input_types.length = (declNonCtxParams d).length
      ∧ (declNonCtxParams d).mapM (fun q => typeTokenOf q.ty)
          = some f.input_types
      ∧ ∀ (mod : Module), f ∈ mod.fns →
          Registration.setFn (registeredName f) FnAccess.Public f.input_types
              (f.name ++ "_token")
            ∈ (Module.generate mod).registrations := by
  obtain ⟨params, ps, hcl, hf⟩ := processFnItem_fn_eq d f d2 h
  have hrel := classifyParams_true_rel d.params ps hcl
  have htk := tokens_of_rel hrel
  have hit : f.input_types
      = (ps.filter (fun p => !p.is_call_context)).filterMap ParamSpec.token := by
    rw [hf]
    rfl
  refine ⟨?_, ?_, ?_⟩
  · rw [hit]
    exact htk.2
  · show (declNonCtxList d.params).mapM _ = _
    rw [hit]
    exact htk.1
  · intro mod hmem
    show _ ∈ (generate_body mod.fns mod.consts).1
    exact List.mem_append_left _ (List.mem_map_of_mem _ hmem)

/-- Witness for `dispatcher_type_signature`: the two-argument
`add_together` declaration yields a two-token `INT, INT` signature. -/
theorem dispatcher_type_signature_witness :
    processFnItem ⟨[], Visibility.publicVis, "add_together",
        [⟨"x", RustType.path "INT"⟩, ⟨"y", RustType.path "INT"⟩],
        some (RustType.path "INT"), "x + y"⟩
      = Except.ok (some ⟨"add_together",
          [⟨"x", RustType.path "INT", PassMode.byValue, false, some "INT"⟩,
           ⟨"y", RustType.path "INT", PassMode.byValue, false, some "INT"⟩],
          some (RustType.path "INT"), ExportedFnParams.defaults⟩,
        ⟨[], Visibility.publicVis, "add_together",
          [⟨"x", RustType.path "INT"⟩, ⟨"y", RustType.path "INT"⟩],
          some (RustType.path "INT"), "x + y"⟩)
    ∧ (ExportedFn.mk "add_together"
          [⟨"x", RustType.path "INT", PassMode.byValue, false, some "INT"⟩,
           ⟨"y", RustType.path "INT", PassMode.byValue, false, some "INT"⟩]
          (some (RustType.path "INT")) ExportedFnParams.defaults).input_types.length
        = (declNonCtxParams ⟨[], Visibility.publicVis, "add_together",
            [⟨"x", RustType.path "INT"⟩, ⟨"y", RustType.path "INT"⟩],
            some (RustType.path "INT"), "x + y"⟩).length
    ∧ (declNonCtxParams ⟨[], Visibility.publicVis, "add_together",
          [⟨"x", RustType.path "INT"⟩, ⟨"y", RustType.path "INT"⟩],
          some (RustType.path "INT"), "x + y"⟩).mapM
            (fun q => typeTokenOf q.ty)
        = some (ExportedFn.mk "add_together"
            [⟨"x", RustType.path "INT", PassMode.byValue, false, some "INT"⟩,
             ⟨"y", RustType.path "INT", PassMode.byValue, false, some "INT"⟩]
            (some (RustType.path "INT")) ExportedFnParams.defaults).input_types := by
  refine ⟨by rfl, ?_, ?_⟩
  · exact (dispatcher_type_signature _ _ _ (by rfl)).1
  · exact (dispatcher_type_signature _ _ _ (by rfl)).2.1

/-- C4: the generated dispatcher's `is_method_call()` is true exactly when
the first non-context declared parameter is a mutable reference; an
immutable-reference or by-value first parameter yields false. -/
theorem is_method_call_iff (d : ItemFn) (f : ExportedFn) (d2 : ItemFn)
    (h : processFnItem d = Except.ok (some f, d2)) :
    ((mkDispatcher f).is_method_call = true
      ↔ ∃ t, (declNonCtxParams d).head?.map FnParam.ty
          = some (RustType.mutRef t)) := by
  obtain ⟨params, ps, hcl, hf⟩ := processFnItem_fn_eq d f d2 h
  have hrel0 := classifyParams_true_rel d.params ps hcl
  have hrel : List.Forall₂ paramRel (declNonCtxParams d) f.nonContextParams := by
    rw [hf]
    exact hrel0
  show f.is_method_call = true ↔ _
  unfold ExportedFn.is_method_call
  obtain ⟨A, L, hA, hL, hrel⟩ :
      ∃ A L, declNonCtxParams d = A ∧ f.nonContextParams = L
        ∧ List.Forall₂ paramRel A L := ⟨_, _, rfl, rfl, hrel⟩
  rw [hA, hL]
  cases hrel with
  | nil => simp
  | cons hqp hrest =>
      obtain ⟨hname, hty, hctx, m, tok, hcl2, hm, htok⟩ := hqp
      have hiff := (classifyParamTy_cases _ m tok hcl2).2
      simp [hm, hiff]

/-- Witness for `is_method_call_iff`: `increment(&mut FLOAT)` is a method
call; `add_one_to(INT)` is not. -/
theorem is_method_call_iff_witness :
    (processFnItem ⟨[], Visibility.publicVis, "increment",
          [⟨"x", RustType.mutRef (RustType.path "FLOAT")⟩], none, "*x += 1.0"⟩
        = Except.ok (some ⟨"increment",
            [⟨"x", RustType.mutRef (RustType.path "FLOAT"),
              PassMode.byMutableRef, false, some "FLOAT"⟩], none,
            ExportedFnParams.defaults⟩,
          ⟨[], Visibility.publicVis, "increment",
            [⟨"x", RustType.mutRef (RustType.path "FLOAT")⟩], none,
            "*x += 1.0"⟩)
      ∧ (mkDispatcher ⟨"increment",
            [⟨"x", RustType.mutRef (RustType.path "FLOAT"),
              PassMode.byMutableRef, false, some "FLOAT"⟩], none,
            ExportedFnParams.defaults⟩).is_method_call = true)
    ∧ (processFnItem ⟨[], Visibility.publicVis, "add_one_to",
          [⟨"x", RustType.path "INT"⟩], some (RustType.path "INT"), "x + 1"⟩
        = Except.ok (some ⟨"add_one_to",
            [⟨"x", RustType.path "INT", PassMode.byValue, false, some "INT"⟩],
            some (RustType.path "INT"), ExportedFnParams.defaults⟩,
          ⟨[], Visibility.publicVis, "add_one_to",
            [⟨"x", RustType.path "INT"⟩], some (RustType.path "INT"),
            "x + 1"⟩)
      ∧ (mkDispatcher ⟨"add_one_to",
            [⟨"x", RustType.path "INT", PassMode.byValue, false, some "INT"⟩],
            some (RustType.path "INT"),
            ExportedFnParams.defaults⟩).is_method_call = false) := by
  refine ⟨⟨by rfl, ?_⟩, ⟨by rfl, ?_⟩⟩
  · exact (is_method_call_iff
      ⟨[], Visibility.publicVis, "increment",
        [⟨"x", RustType.mutRef (RustType.path "FLOAT")⟩], none, "*x += 1.0"⟩
      ⟨"increment",
        [⟨"x", RustType.mutRef (RustType.path "FLOAT"),
          PassMode.byMutableRef, false, some "FLOAT"⟩], none,
        ExportedFnParams.defaults⟩
      ⟨[], Visibility.publicVis, "increment",
        [⟨"x", RustType.mutRef (RustType.path "FLOAT")⟩], none, "*x += 1.0"⟩
      (by rfl)).mpr ⟨RustType.path "FLOAT", by rfl⟩
  · have hiff := is_method_call_iff
      ⟨[], Visibility.publicVis, "add_one_to",
        [⟨"x", RustType.path "INT"⟩], some (RustType.path "INT"), "x + 1"⟩
      ⟨"add_one_to",
        [⟨"x", RustType.path "INT", PassMode.byValue, false, some "INT"⟩],
        some (RustType.path "INT"), ExportedFnParams.defaults⟩
      ⟨[], Visibility.publicVis, "add_one_to",
        [⟨"x", RustType.path "INT"⟩], some (RustType.path "INT"), "x + 1"⟩
      (by rfl)
    cases hb : (mkDispatcher ⟨"add_one_to",
        [⟨"x", RustType.path "INT", PassMode.byValue, false, some "INT"⟩],
        some (RustType.path "INT"),
        ExportedFnParams.defaults⟩).is_method_call with
    | false => rfl
    | true =>
        obtain ⟨t, ht⟩ := hiff.mp hb
        cases ht

/-! ### Helper lemmas: metadata traversal -/

theorem joinPath_append (path : List String) (n : String) (hp : path ≠ []) :
    joinPath (path ++ [n]) = joinPath path ++ doubleColonSyntax ++ n := by
  induction path with
  | nil => exact absurd rfl hp
  | cons a rest ih =>
      cases rest with
      | nil => rfl
      | cons b rest2 =>
          have h2 := ih (by simp)
          show a ++ doubleColonSyntax ++ joinPath ((b :: rest2) ++ [n]) = _
          rw [h2]
          show _ = a ++ doubleColonSyntax ++ joinPath (b :: rest2)
              ++ doubleColonSyntax ++ n
          rw [String.append_assoc (a ++ doubleColonSyntax),
            String.append_assoc (a ++ doubleColonSyntax)]

theorem make_metadata_specRecord (path : List String) (f : ScriptFnDef) :
    make_metadata (some (joinPath path)) f = specRecord (some path, f) := rfl

mutual

theorem scan_module_eq_spec (path : List String) (hp : path ≠ []) (m : RModule) :
    scan_module (joinPath path) m
      = (specScan path m).map (fun q => specRecord (some q.1, q.2)) := by
  match m with
  | RModule.mk fns subs =>
      show fns.map (make_metadata (some (joinPath path)))
          ++ scan_subs (joinPath path) subs
        = (fns.map (fun f => (path, f)) ++ specScanSubs path subs).map
            (fun q => specRecord (some q.1, q.2))
      rw [List.map_append, List.map_map]
      rw [scan_subs_eq_spec path hp subs]
      congr 1

theorem scan_subs_eq_spec (path : List String) (hp : path ≠ [])
    (subs : List (String × RModule)) :
    scan_subs (joinPath path) subs
      = (specScanSubs path subs).map (fun q => specRecord (some q.1, q.2)) := by
  match subs with
  | [] => rfl
  | (n, m) :: rest =>
      show scan_module (joinPath path ++ doubleColonSyntax ++ n) m
          ++ scan_subs (joinPath path) rest
        = (specScan (path ++ [n]) m ++ specScanSubs path rest).map
            (fun q => specRecord (some q.1, q.2))
      rw [List.map_append]
      rw [← joinPath_append path n hp]
      rw [scan_module_eq_spec (path ++ [n]) (by simp) m]
      rw [scan_subs_eq_spec path hp rest]

end

/-- C8: the metadata collector produces exactly one record per
script-defined function reachable from a visible namespace — top-level
functions without a namespace key, imported modules recursively with path
segments joined by the double-colon token — each record holding the name,
the access level as "public"/"private", the anonymous flag (true iff the
name starts with the reserved prefix), and the ordered parameter names. -/
theorem flatten_map_map {α β γ : Type} (l : List α) (g : α → List β)
    (f : β → γ) :
    (l.map (fun a => (g a).map f)).flatten = (l.map g).flatten.map f := by
  induction l with
  | nil => rfl
  | cons a rest ih => simp [ih]

theorem collect_fn_metadata_refines (ctx : NativeCallContext) :
    collect_fn_metadata ctx = (specReachable ctx).map specRecord := by
  unfold collect_fn_metadata specReachable
  rw [List.map_append]
  congr 1
  · rw [← flatten_map_map ctx.namespaces
        (fun m => m.script_fns.map
          (fun f => ((none : Option (List String)), f)))
        specRecord]
    congr 1
    apply List.map_congr_left
    intro m _
    rw [List.map_map]
    apply List.map_congr_left
    intro f _
    rfl
  · rw [← flatten_map_map ctx.imports
        (fun p => (specScan [p.1] p.2).map
          (fun q => ((some q.1 : Option (List String)), q.2)))
        specRecord]
    congr 1
    apply List.map_congr_left
    intro p _
    rw [List.map_map]
    exact scan_module_eq_spec [p.1] (by simp) p.2

/-! ### C7: modifier detachment -/

theorem any_false_of_filter_nil {p : Attr → Bool} (l : List Attr)
    (h : l.filter p = []) : l.any p = false := by
  induction l with
  | nil => rfl
  | cons a rest ih =>
      by_cases hp : p a = true
      · rw [List.filter_cons_of_pos hp] at h
        cases h
      · rw [List.filter_cons_of_neg hp] at h
        rw [List.any_cons]
        simp only [Bool.or_eq_false_iff]
        exact ⟨by simpa using hp, ih h⟩

theorem removeFirst_no_more_of_le_one (attrs : List Attr)
    (h : (attrs.filter isRhaiFnAttr).length ≤ 1) :
    (removeFirstRhaiFn attrs).any isRhaiFnAttr = false := by
  induction attrs with
  | nil => rfl
  | cons a rest ih =>
      cases a with
      | rhaiFn args =>
          have hlen : (rest.filter isRhaiFnAttr).length = 0 := by
            rw [List.filter_cons_of_pos (by rfl)] at h
            simpa using h
          have hnil : rest.filter isRhaiFnAttr = [] :=
            List.length_eq_zero.mp hlen
          show rest.any isRhaiFnAttr = false
          exact any_false_of_filter_nil rest hnil
      | other n =>
          have h2 : (rest.filter isRhaiFnAttr).length ≤ 1 := by
            rw [List.filter_cons_of_neg (by simp [isRhaiFnAttr])] at h
            exact h
          show (Attr.other n :: removeFirstRhaiFn rest).any isRhaiFnAttr = false
          rw [List.any_cons]
          simp only [Bool.or_eq_false_iff]
          exact ⟨by simp [isRhaiFnAttr], ih h2⟩

/-- Counterexample to C7 as stated: a function declaration carrying two
export-modifier attributes is accepted without failure, yet the generated
output still contains an export-modifier annotation (only the first one is
detached), so "the annotation never appears in the generated output" fails
on this input. -/
theorem modifier_survives_duplicate_cex :
    (Module.parse (ItemMod.mk Visibility.publicVis "dup"
        (some [Item.fn ⟨[Attr.rhaiFn [RhaiFnArg.pureFlag],
                  Attr.rhaiFn [RhaiFnArg.pureFlag]],
                Visibility.publicVis, "f", [], none, "()"⟩]))).map
        (fun mod => (Module.generate mod).items.any itemHasRhaiFn)
      = Except.ok true := by rfl

/-- C7 (amended): extraction leaves every item unchanged except that each
function item loses its first export-modifier attribute — visibility,
name, parameters, return type and body are untouched, and non-function
items are untouched entirely — and the generated unit textually contains
exactly those stripped declarations.  When no function item carries more
than one export-modifier attribute and no other item carries any, no such
annotation appears in the generated output; a declaration carrying several
keeps the later ones. -/
theorem strip_first_modifier_only (m : ItemMod) (items : List Item)
    (mod : Module) (hc : m.content = some items)
    (hp : Module.parse m = Except.ok mod) :
    (Module.generate mod).items = items.map stripItem
      ∧ (∀ d : ItemFn, stripItem (Item.fn d)
          = Item.fn ⟨removeFirstRhaiFn d.attrs, d.vis, d.name, d.params,
              d.ret, d.body⟩)
      ∧ (∀ c : ItemConst, stripItem (Item.const c) = Item.const c)
      ∧ (∀ s : String, stripItem (Item.other s) = Item.other s)
      ∧ ((∀ i ∈ items, modifierCountOk i = true) →
          ∀ j ∈ (Module.generate mod).items, itemHasRhaiFn j = false) := by
  obtain ⟨fs, its, hPI, hmod⟩ := Module.parse_parts m items mod hc hp
  have hits : its = items.map stripItem := (parseItems_parts items fs its hPI).1
  have hgen : (Module.generate mod).items = items.map stripItem := by
    rw [hmod]
    exact hits
  refine ⟨hgen, fun d => rfl, fun c => rfl, fun s => rfl, ?_⟩
  intro hcnt j hj
  rw [hgen] at hj
  obtain ⟨i, hi, rfl⟩ := List.mem_map.mp hj
  cases i with
  | fn d =>
      have hle : rhaiFnCount d ≤ 1 := by
        have := hcnt (Item.fn d) hi
        simpa [modifierCountOk] using this
      show (removeFirstRhaiFn d.attrs).any isRhaiFnAttr = false
      exact removeFirst_no_more_of_le_one d.attrs hle
  | const c =>
      have := hcnt (Item.const c) hi
      simpa [modifierCountOk, itemHasRhaiFn, stripItem] using this
  | other s => rfl

/-- Witness for `strip_first_modifier_only`: the skipped-function module
from the repository's own tests — the `rhai_fn(skip)` annotation is
removed from the emitted declaration, everything else is unchanged, and no
annotation appears in the output. -/
theorem strip_first_modifier_only_witness :
    Module.parse (ItemMod.mk Visibility.publicVis "one_fn"
        (some [Item.fn ⟨[Attr.rhaiFn [RhaiFnArg.skip]], Visibility.publicVis,
                 "get_mystic_number", [], some (RustType.path "INT"), "42"⟩]))
      = Except.ok
          ⟨some ⟨Visibility.publicVis, "one_fn",
            some [Item.fn ⟨[], Visibility.publicVis, "get_mystic_number", [],
                    some (RustType.path "INT"), "42"⟩]⟩, [], []⟩
    ∧ (Module.generate
          ⟨some ⟨Visibility.publicVis, "one_fn",
            some [Item.fn ⟨[], Visibility.publicVis, "get_mystic_number", [],
                    some (RustType.path "INT"), "42"⟩]⟩, [], []⟩).items
        = [Item.fn ⟨[Attr.rhaiFn [RhaiFnArg.skip]], Visibility.publicVis,
             "get_mystic_number", [], some (RustType.path "INT"),
             "42"⟩].map stripItem
    ∧ (∀ j ∈ (Module.generate
          ⟨some ⟨Visibility.publicVis, "one_fn",
            some [Item.fn ⟨[], Visibility.publicVis, "get_mystic_number", [],
                    some (RustType.path "INT"), "42"⟩]⟩, [], []⟩).items,
        itemHasRhaiFn j = false) := by
  have h := strip_first_modifier_only
    (ItemMod.mk Visibility.publicVis "one_fn"
      (some [Item.fn ⟨[Attr.rhaiFn [RhaiFnArg.skip]], Visibility.publicVis,
               "get_mystic_number", [], some (RustType.path "INT"), "42"⟩]))
    [Item.fn ⟨[Attr.rhaiFn [RhaiFnArg.skip]], Visibility.publicVis,
       "get_mystic_number", [], some (RustType.path "INT"), "42"⟩]
    ⟨some ⟨Visibility.publicVis, "one_fn",
      some [Item.fn ⟨[], Visibility.publicVis, "get_mystic_number", [],
              some (RustType.path "INT"), "42"⟩]⟩, [], []⟩
    rfl (by rfl)
  exact ⟨by rfl, h.1, h.2.2.2.2 (by decide)⟩

end RhaiVerify
